import Mathlib

/-!
Verification development for the event-ingestion core of the tracy XSS
detection backend (api/common/event.go): the location classifier
(getTracerLocation / getDOMContexts), the event ingestion path (AddEvent),
the serialized event cache worker (tracerEventCache) and the
query-events-by-tracer load path (getTracerEventsDB).

The Go source is embedded shallowly: Go slices become Lean lists, the Go
map of the cache worker becomes a function with the Go zero value (nil
slice = []) as default, uints become Nat, and the external collaborators
(HTML parser, gohtml pretty printer, persistent store, subscribers) are
modelled as explicit inputs / effect records, since the spec treats them
as interfaces only.
-/

namespace Tracy

/-! ### Enumerated constants of the external types package

Modelled from the spec: the types package is not under src/, only its
constants are used by event.go.  The spec fixes the reason vocabulary
(section 4.1) and shows that the reason left untouched by the code (a Go
zero value, as in the NodeName/response row) is called Unclassified, so
Unclassified is the zero value; all other codes only need to be distinct.
Location kinds are the five-member enumeration of section 3. -/

namespace types

def Text : Nat := 0
def NodeName : Nat := 1
def Attr : Nat := 2
def AttrVal : Nat := 3
def Comment : Nat := 4

def Unclassified : Nat := 0
def LeafNode : Nat := 1
def LeafNodeScriptTag : Nat := 2
def TagName : Nat := 3
def LeafNodeCommentTag : Nat := 4
def AttributeName : Nat := 5
def AttributeNameHTTPResponse : Nat := 6
def AttributeValueHTTPResponse : Nat := 7
def AttributeValueStartHref : Nat := 8
def AttributeValueOnEventHandler : Nat := 9

end types

/-! ### Strings: Go string helpers

Go strings.Contains s sub / strings.HasPrefix s pre, as decidable,
executable list operations on the character data. -/

def charsHavePre : List Char → List Char → Bool
  | [], _ => true
  | _ :: _, [] => false
  | p :: ps, c :: cs => p == c && charsHavePre ps cs

def charsContain (sub : List Char) : List Char → Bool
  | [] => charsHavePre sub []
  | c :: cs => charsHavePre sub (c :: cs) || charsContain sub cs

def goContains (s sub : String) : Bool :=
  charsContain sub.toList s.toList

def goStartsWith (s pre : String) : Bool :=
  charsHavePre pre.toList s.toList

/-- Modelled from the spec: gohtml.Format is the external pretty printer
(excluded from scope, "pretty-printing of raw captures"); it only shapes
the snippet text, so it is embedded as the identity on the captured data.
No claim depends on its output. -/
def gohtmlFormat (s : String) : String := s

/-! ### Data model -/

/-- types.DOMContext, a Finding: one classified marker location. -/
structure DOMContext where
  tracerEventID : Nat
  htmlNodeType : String
  htmlLocationType : Nat
  eventContext : String
  severity : Nat
  reason : Nat
deriving DecidableEq, Repr

/-- golang.org/x/net/html node kinds. -/
inductive NodeType where
  | errorNode
  | textNode
  | documentNode
  | elementNode
  | commentNode
  | doctypeNode
  | rawNode
deriving DecidableEq, Repr

/-- html.Attribute (the unused Namespace field is omitted). -/
structure HTMLAttribute where
  key : String
  val : String
deriving DecidableEq, Repr

/-- A parsed html.Node tree: type, Data, Attr, and the child list
(FirstChild/NextSibling chain).  The Parent link is reconstructed during
the walk by passing the parent's Data down, with "" for the root,
mirroring the synthetic empty parent the Go code installs at the root. -/
inductive HTMLNode where
  | node (nodeType : NodeType) (data : String) (attr : List HTMLAttribute)
      (children : List HTMLNode)
deriving Repr

/-! ### The location classifier: getTracerLocation

Direct embedding of getTracerLocation (event.go lines 187-312).  The two
per-call working variables sev and reason start at the Go zero value 0
and are threaded, unreset, from the node check through the attribute
iterations exactly as in the source; highest is the accumulator the
caller's pointer receives. -/

/-- Final value of the (sev, reason) pair after the two sequential
conditional assignments of the NodeName branch (event.go lines 210-224):
the script-parent check may set (1, LeafNodeScriptTag), then the
element-node check may overwrite with (3, TagName); rendered as the
equivalent case split on the final value, starting from the zero values
(0, 0). -/
def nodeNameSevReason (parentData : String) (ty : NodeType) (eventType : String) :
    Nat × Nat :=
  if ty = NodeType.elementNode ∧ ¬ eventType = "response" then (3, types.TagName)
  else if parentData = "script" ∧ ¬ eventType = "response" then (1, types.LeafNodeScriptTag)
  else (0, 0)

/-- Final value of sev in the comment branch (event.go lines 238-240). -/
def commentSev (eventType : String) : Nat :=
  if ¬ eventType = "response" then 1 else 0

/-- The node's own check (event.go lines 198-255): run on n.Data, returns
(locations, highest, sev, reason) with the working variables in the state
they are left for the attribute loop. -/
def nodeCheck (parentData : String) (ty : NodeType) (d : String)
    (tracer : String) (eventType : String) (eid : Nat)
    (acc : List DOMContext) (highest : Nat) :
    List DOMContext × Nat × Nat × Nat :=
  if goContains d tracer = true then
    match ty with
    | NodeType.textNode =>
        (acc ++ [⟨eid, parentData, types.Text, gohtmlFormat d, 0, types.LeafNode⟩],
         max highest 0, 0, 0)
    | NodeType.documentNode | NodeType.elementNode | NodeType.doctypeNode =>
        (acc ++ [⟨eid, parentData, types.NodeName, gohtmlFormat d,
            (nodeNameSevReason parentData ty eventType).1,
            (nodeNameSevReason parentData ty eventType).2⟩],
         max highest (nodeNameSevReason parentData ty eventType).1,
         (nodeNameSevReason parentData ty eventType).1,
         (nodeNameSevReason parentData ty eventType).2)
    | NodeType.commentNode | NodeType.errorNode | NodeType.rawNode =>
        (acc ++ [⟨eid, parentData, types.Comment, gohtmlFormat d,
            commentSev eventType, types.LeafNodeCommentTag⟩],
         max highest (commentSev eventType), commentSev eventType, 0)
  else
    (acc, highest, 0, 0)

/-- The (sev, reason) pair of an attribute-name match (event.go lines
259-265). -/
def attrNameSevReason (eventType : String) : Nat × Nat :=
  if ¬ eventType = "response" then (3, types.AttributeName)
  else (1, types.AttributeNameHTTPResponse)

/-- The (sev, reason) pair of an attribute-value match (event.go lines
278-291): the default (1, AttributeValueHTTPResponse), refined by the
href and on-handler special cases only outside HTTP responses. -/
def attrValSevReason (key val tracer eventType : String) : Nat × Nat :=
  if ¬ eventType = "response" then
    if key = "href" ∧ goStartsWith val tracer = true then
      (2, types.AttributeValueStartHref)
    else if goStartsWith key "on" = true then
      (2, types.AttributeValueOnEventHandler)
    else (1, types.AttributeValueHTTPResponse)
  else (1, types.AttributeValueHTTPResponse)

/-- One iteration of the attribute loop (event.go lines 257-307).  The
state is (locations, highest, sev, reason); when neither the key nor the
value contains the marker the stale sev is still folded into highest, as
in the source. -/
def attrStep (nodeData : String) (tracer : String) (eventType : String) (eid : Nat)
    (st : List DOMContext × Nat × Nat × Nat) (a : HTMLAttribute) :
    List DOMContext × Nat × Nat × Nat :=
  if goContains a.key tracer = true then
    (st.1 ++ [⟨eid, nodeData, types.Attr, a.val,
        (attrNameSevReason eventType).1, (attrNameSevReason eventType).2⟩],
     max st.2.1 (attrNameSevReason eventType).1,
     (attrNameSevReason eventType).1, (attrNameSevReason eventType).2)
  else if goContains a.val tracer = true then
    (st.1 ++ [⟨eid, nodeData, types.AttrVal, a.val,
        (attrValSevReason a.key a.val tracer eventType).1,
        (attrValSevReason a.key a.val tracer eventType).2⟩],
     max st.2.1 (attrValSevReason a.key a.val tracer eventType).1,
     (attrValSevReason a.key a.val tracer eventType).1,
     (attrValSevReason a.key a.val tracer eventType).2)
  else
    (st.1, max st.2.1 st.2.2.1, st.2.2.1, st.2.2.2)

mutual

/-- getTracerLocation (event.go lines 187-312): node check, then the
attribute loop, then the children in document order, accumulating
locations and the running highest severity. -/
def getTracerLocation (parentData : String) (tracer : String) (eventType : String)
    (eid : Nat) (n : HTMLNode) (acc : List DOMContext) (highest : Nat) :
    List DOMContext × Nat :=
  match n with
  | HTMLNode.node ty d attrs children =>
    getTracerLocationChildren d tracer eventType eid children
      (attrs.foldl (attrStep d tracer eventType eid)
        (nodeCheck parentData ty d tracer eventType eid acc highest)).1
      (attrs.foldl (attrStep d tracer eventType eid)
        (nodeCheck parentData ty d tracer eventType eid acc highest)).2.1

/-- The child loop of getTracerLocation (event.go lines 309-311); the
children's parent data is the current node's Data. -/
def getTracerLocationChildren (parentData : String) (tracer : String) (eventType : String)
    (eid : Nat) (ns : List HTMLNode) (acc : List DOMContext) (highest : Nat) :
    List DOMContext × Nat :=
  match ns with
  | [] => (acc, highest)
  | c :: cs =>
    getTracerLocationChildren parentData tracer eventType eid cs
      (getTracerLocation parentData tracer eventType eid c acc highest).1
      (getTracerLocation parentData tracer eventType eid c acc highest).2

end

/-- Maximum severity over a list of findings, 0 for the empty list. -/
def maxSeverity : List DOMContext → Nat
  | [] => 0
  | c :: cs => max c.severity (maxSeverity cs)

/-! ### Ingestion: getDOMContexts and AddEvent

getDOMContexts (event.go lines 116-181) and AddEvent (lines 68-112).
The persistent store and the subscriber fan-out are external
collaborators; their invocations are recorded as an ordered effect list,
and the tracer row they persist is returned explicitly.  The external
html.Parse of the raw capture is part of the input: some tree on success,
none on a parse error. -/

/-- types.RawEvent: a raw capture row. -/
structure RawEvent where
  id : Nat
  data : String
  format : Nat
deriving DecidableEq, Repr

/-- The Go zero value of types.RawEvent: all fields zero. -/
def RawEvent.empty : RawEvent := ⟨0, "", 0⟩

/-- types.TracerEvent as stored: its raw capture reference and resolved
raw capture, its kind, and its findings. -/
structure TracerEvent where
  id : Nat
  tracerID : Nat
  rawEventID : Nat
  rawEvent : RawEvent
  eventType : String
  domContexts : List DOMContext
deriving DecidableEq, Repr

/-- types.Tracer: the persisted tracer row fields event.go touches. -/
structure Tracer where
  id : Nat
  tracerPayload : String
  overallSeverity : Nat
  hasTracerEvents : Bool
deriving DecidableEq, Repr

/-- The raw capture format tag assigned by AddEventData. -/
inductive Format where
  | html
  | json
deriving DecidableEq, Repr

/-- The input of one AddEvent call: the event's identifier, kind, its raw
capture's format, and the result of the external html.Parse of the raw
capture data (none models a parse failure). -/
structure EventInput where
  id : Nat
  eventType : String
  format : Format
  parsedDoc : Option HTMLNode

/-- Store and subscriber invocations performed by one AddEvent call, in
program order. -/
inductive Effect where
  | updateTracerSeverity (sev : Nat)
  | updateTracerHasEvents
  | notifyTracer
  | createEvent (contexts : List DOMContext)
  | appendEventCache (tracerID : Nat)
  | notifyEvent
  | notifyHighSeverity
deriving DecidableEq, Repr

/-- getDOMContexts (event.go lines 116-181): classify the parsed capture,
zero out severities for "text" events, and update the persisted tracer
row (severity watermark, hasTracerEvents flag) with the matching
subscriber update.  Returns the findings attached to the event, the
highest severity, the tracer row as persisted, and the effect log. -/
def getDOMContexts (tracer : Tracer) (event : EventInput) :
    Except Unit (List DOMContext × Nat × Tracer × List Effect) :=
  match event.parsedDoc with
  | none => Except.error ()
  | some doc =>
    let r := getTracerLocation "" tracer.tracerPayload event.eventType event.id doc [] 0
    if r.1 = [] then Except.ok (r.1, r.2, tracer, [])
    else
      let contexts :=
        if event.eventType = "text" then
          r.1.map (fun c => { c with severity := 0 })
        else r.1
      let sev := if event.eventType = "text" then 0 else r.2
      let old := tracer.hasTracerEvents
      let tracerAfter : Tracer :=
        { tracer with
          hasTracerEvents := true
          overallSeverity :=
            if tracer.overallSeverity < sev then sev else tracer.overallSeverity }
      let effs :=
        (if tracer.overallSeverity < sev then [Effect.updateTracerSeverity sev] else [])
        ++ (if old = false then [Effect.updateTracerHasEvents] else [])
        ++ (if old = false ∨ tracer.overallSeverity < sev then [Effect.notifyTracer] else [])
      Except.ok (contexts, sev, tracerAfter, effs)

/-- The observable outcome of a successful AddEvent: the findings stored
with the event, the highest severity, and the tracer row as persisted. -/
structure AddEventOutcome where
  contexts : List DOMContext
  highest : Nat
  tracerAfter : Tracer
deriving DecidableEq, Repr

/-- AddEvent (event.go lines 68-112): classify markup captures via
getDOMContexts (aborting on parse failure before any write), persist the
event, push it into the event cache, notify subscribers, and raise a
distinct high-severity alert when a finding has severity at least 2. -/
def AddEvent (tracer : Tracer) (event : EventInput) :
    Except Unit AddEventOutcome × List Effect :=
  if event.format = Format.html then
    match getDOMContexts tracer event with
    | Except.error e => (Except.error e, [])
    | Except.ok (contexts, sev, tracerAfter, effs) =>
      (Except.ok ⟨contexts, sev, tracerAfter⟩,
       effs
        ++ [Effect.createEvent contexts, Effect.appendEventCache tracer.id, Effect.notifyEvent]
        ++ (if contexts.any (fun c => 2 ≤ c.severity) then [Effect.notifyHighSeverity] else []))
  else
    (Except.ok ⟨[], 0, tracer⟩,
     [Effect.createEvent [], Effect.appendEventCache tracer.id, Effect.notifyEvent])

/-- A sequence of AddEvent calls for one tracer, threading the persisted
tracer row; collects, per successful call, the findings stored with that
call's event. -/
def runAddEvents : Tracer → List EventInput → Tracer × List (List DOMContext)
  | t, [] => (t, [])
  | t, e :: rest =>
    match AddEvent t e with
    | (Except.error _, _) => runAddEvents t rest
    | (Except.ok out, _) =>
      ((runAddEvents out.tracerAfter rest).1,
       out.contexts :: (runAddEvents out.tracerAfter rest).2)

/-! ### The event cache worker: tracerEventCache

tracerEventCache (event.go lines 19-54) is a worker looping over two
channels; one loop iteration handles one message.  The Go map with nil
default is a function from identifiers to lists; the Store collaborator
used on a cache miss is a function from identifiers to the event lists it
currently holds (getTracerEventsDB errors are fatal in the source, so the
store is total here).  A step returns the new map, the reply sent on the
out channel (if any), and whether a Store load was performed. -/

/-- One message of the serialized stream: read i is a Get (or, for
i = -1, the InvalidateAll flush); update is an Append. -/
inductive CacheMsg where
  | read (i : Int)
  | update (id : Int) (e : TracerEvent)
deriving DecidableEq, Repr

/-- One loop iteration of tracerEventCache (event.go lines 28-52). -/
def tracerEventCacheStep (db : Int → List TracerEvent) (s : Int → List TracerEvent) :
    CacheMsg → (Int → List TracerEvent) × Option (List TracerEvent) × Bool
  | CacheMsg.read i =>
    if i = -1 then (fun _ => [], none, false)
    else if (s i).isEmpty then
      (fun j => if j = i then db i else s j, some (db i), true)
    else
      (s, some (s i), false)
  | CacheMsg.update id e =>
    (fun j => if j = id then s id ++ [e] else s j, none, false)

/-- Process a serialized message stream, collecting each step's reply and
load flag. -/
def tracerEventCacheRun (db : Int → List TracerEvent) :
    (Int → List TracerEvent) → List CacheMsg →
    (Int → List TracerEvent) × List (Option (List TracerEvent) × Bool)
  | s, [] => (s, [])
  | s, m :: ms =>
    ((tracerEventCacheRun db (tracerEventCacheStep db s m).1 ms).1,
     (tracerEventCacheStep db s m).2
       :: (tracerEventCacheRun db (tracerEventCacheStep db s m).1 ms).2)

/-- The identifiers for which a Store load was performed while processing
a stream. -/
def cacheLoadIds (db : Int → List TracerEvent) :
    (Int → List TracerEvent) → List CacheMsg → List Int
  | _, [] => []
  | s, m :: ms =>
    (match m with
     | CacheMsg.read i => if (tracerEventCacheStep db s m).2.2 then [i] else []
     | CacheMsg.update _ _ => []) ++ cacheLoadIds db (tracerEventCacheStep db s m).1 ms

/-- A message neither addressed to identifier t nor the flush message. -/
def avoids (t : Int) : CacheMsg → Bool
  | CacheMsg.read i => !(i == t) && !(i == -1)
  | CacheMsg.update id _ => !(id == t)

/-- Formalization of claim C5 as stated (the direction the code decides):
from a fresh cache, a Get for an identifier that was never loaded while
processing the preceding messages performs a Store load. -/
def getLoadsWhenNeverLoaded : Prop :=
  ∀ (db : Int → List TracerEvent) (msgs : List CacheMsg) (i : Int),
    i ≠ -1 →
    i ∉ cacheLoadIds db (fun _ => []) msgs →
    (tracerEventCacheStep db (tracerEventCacheRun db (fun _ => []) msgs).1
      (CacheMsg.read i)).2.2 = true

/-! ### The query-events-by-tracer load path: getTracerEventsDB

getTracerEventsDB (event.go lines 352-377).  The row query and the
Related raw-capture fetch are Store collaborators: the input is the
queried event row list (raw captures unresolved, i.e. the zero value, as
Preload only loads the findings) and a function resolving a RawEvent
identifier to its row.  The Go map cache is an association list keyed
exactly as the source keys it; the output records, besides the rows, the
identifier of every Related fetch performed. -/

def lookupRaw : List (Nat × RawEvent) → Nat → Option RawEvent
  | [], _ => none
  | (k, r) :: rest, i => if k = i then some r else lookupRaw rest i

/-- The loop of getTracerEventsDB (event.go lines 364-374): k is the list
position.  On a cache hit the fetched row is assigned to the discarded
loop copy, so the event row is returned unchanged; on a miss the related
row is fetched, stored into the row, and cached under the position k. -/
def getTracerEventsLoop (related : Nat → RawEvent) :
    Nat → List (Nat × RawEvent) → List TracerEvent → List TracerEvent × List Nat
  | _, _, [] => ([], [])
  | k, cache, v :: rest =>
    match lookupRaw cache v.rawEventID with
    | some _ =>
      ((getTracerEventsLoop related (k + 1) cache rest).1.cons v,
       (getTracerEventsLoop related (k + 1) cache rest).2)
    | none =>
      ((getTracerEventsLoop related (k + 1) ((k, related v.rawEventID) :: cache) rest).1.cons
        { v with rawEvent := related v.rawEventID },
       (getTracerEventsLoop related (k + 1) ((k, related v.rawEventID) :: cache) rest).2.cons
        v.rawEventID)

/-- getTracerEventsDB (event.go lines 352-377), starting from position 0
with an empty raw-capture cache. -/
def getTracerEventsDB (related : Nat → RawEvent) (tracerEvents : List TracerEvent) :
    List TracerEvent × List Nat :=
  getTracerEventsLoop related 0 [] tracerEvents

/-- Formalization of claim C8: within one query, repeated raw captures
are deduplicated by the raw capture's own identifier — at most one fetch
per distinct identifier — and every returned row's raw capture is the one
matching its own rawEventID. -/
def rawCaptureDedupByIdentifier : Prop :=
  ∀ (related : Nat → RawEvent) (rows : List TracerEvent),
    (getTracerEventsDB related rows).2.Nodup
    ∧ ∀ v ∈ (getTracerEventsDB related rows).1, v.rawEvent = related v.rawEventID

/-! ## Lemmas about the classifier -/

lemma maxSeverity_append (l1 l2 : List DOMContext) :
    maxSeverity (l1 ++ l2) = max (maxSeverity l1) (maxSeverity l2) := by
  induction l1 with
  | nil => simp [maxSeverity]
  | cons c cs ih => simp [maxSeverity, ih, Nat.max_assoc]

/-- The node check appends its findings and folds exactly their maximum
severity into highest; the working severity it leaves behind is bounded
by the new highest. -/
lemma nodeCheck_spec (p : String) (ty : NodeType) (d tr ek : String) (eid : Nat)
    (acc : List DOMContext) (h : Nat) :
    (∃ F, (nodeCheck p ty d tr ek eid acc h).1 = acc ++ F
        ∧ (nodeCheck p ty d tr ek eid acc h).2.1 = max h (maxSeverity F))
    ∧ (nodeCheck p ty d tr ek eid acc h).2.2.1 ≤ (nodeCheck p ty d tr ek eid acc h).2.1 := by
  unfold nodeCheck
  by_cases hc : goContains d tr = true
  · rw [if_pos hc]
    cases ty with
    | textNode =>
      exact ⟨⟨[⟨eid, p, types.Text, gohtmlFormat d, 0, types.LeafNode⟩],
        rfl, by simp [maxSeverity]⟩, by simp⟩
    | elementNode =>
      exact ⟨⟨[⟨eid, p, types.NodeName, gohtmlFormat d,
          (nodeNameSevReason p NodeType.elementNode ek).1,
          (nodeNameSevReason p NodeType.elementNode ek).2⟩],
        rfl, by simp [maxSeverity]⟩, by simp⟩
    | documentNode =>
      exact ⟨⟨[⟨eid, p, types.NodeName, gohtmlFormat d,
          (nodeNameSevReason p NodeType.documentNode ek).1,
          (nodeNameSevReason p NodeType.documentNode ek).2⟩],
        rfl, by simp [maxSeverity]⟩, by simp⟩
    | doctypeNode =>
      exact ⟨⟨[⟨eid, p, types.NodeName, gohtmlFormat d,
          (nodeNameSevReason p NodeType.doctypeNode ek).1,
          (nodeNameSevReason p NodeType.doctypeNode ek).2⟩],
        rfl, by simp [maxSeverity]⟩, by simp⟩
    | commentNode =>
      exact ⟨⟨[⟨eid, p, types.Comment, gohtmlFormat d, commentSev ek,
          types.LeafNodeCommentTag⟩],
        rfl, by simp [maxSeverity]⟩, by simp⟩
    | errorNode =>
      exact ⟨⟨[⟨eid, p, types.Comment, gohtmlFormat d, commentSev ek,
          types.LeafNodeCommentTag⟩],
        rfl, by simp [maxSeverity]⟩, by simp⟩
    | rawNode =>
      exact ⟨⟨[⟨eid, p, types.Comment, gohtmlFormat d, commentSev ek,
          types.LeafNodeCommentTag⟩],
        rfl, by simp [maxSeverity]⟩, by simp⟩
  · rw [if_neg hc]
    exact ⟨⟨[], by simp, by simp [maxSeverity]⟩, Nat.zero_le _⟩

/-- One attribute iteration appends its findings and folds exactly their
maximum severity into highest, provided the incoming working severity is
already below highest — which also remains true on exit, even in the
non-matching case where the stale working severity is re-folded. -/
lemma attrStep_spec (nd tr ek : String) (eid : Nat)
    (st : List DOMContext × Nat × Nat × Nat) (a : HTMLAttribute)
    (hs : st.2.2.1 ≤ st.2.1) :
    (∃ F, (attrStep nd tr ek eid st a).1 = st.1 ++ F
        ∧ (attrStep nd tr ek eid st a).2.1 = max st.2.1 (maxSeverity F))
    ∧ (attrStep nd tr ek eid st a).2.2.1 ≤ (attrStep nd tr ek eid st a).2.1 := by
  unfold attrStep
  by_cases hk : goContains a.key tr = true
  · rw [if_pos hk]
    exact ⟨⟨[⟨eid, nd, types.Attr, a.val,
        (attrNameSevReason ek).1, (attrNameSevReason ek).2⟩],
      rfl, by simp [maxSeverity]⟩, by simp⟩
  · rw [if_neg hk]
    by_cases hv : goContains a.val tr = true
    · rw [if_pos hv]
      exact ⟨⟨[⟨eid, nd, types.AttrVal, a.val,
          (attrValSevReason a.key a.val tr ek).1,
          (attrValSevReason a.key a.val tr ek).2⟩],
        rfl, by simp [maxSeverity]⟩, by simp⟩
    · rw [if_neg hv]
      refine ⟨⟨[], by simp, ?_⟩, ?_⟩
      · simp only [maxSeverity]; omega
      · simp only []; omega

/-- The whole attribute loop appends its findings and folds exactly their
maximum severity into highest. -/
lemma attrFold_spec (nd tr ek : String) (eid : Nat) (attrs : List HTMLAttribute) :
    ∀ st : List DOMContext × Nat × Nat × Nat, st.2.2.1 ≤ st.2.1 →
    (∃ F, (attrs.foldl (attrStep nd tr ek eid) st).1 = st.1 ++ F
        ∧ (attrs.foldl (attrStep nd tr ek eid) st).2.1 = max st.2.1 (maxSeverity F))
    ∧ (attrs.foldl (attrStep nd tr ek eid) st).2.2.1
        ≤ (attrs.foldl (attrStep nd tr ek eid) st).2.1 := by
  induction attrs with
  | nil =>
    intro st hs
    exact ⟨⟨[], by simp, by simp [maxSeverity]⟩, hs⟩
  | cons a as ih =>
    intro st hs
    obtain ⟨⟨F1, ha1, hh1⟩, hs1⟩ := attrStep_spec nd tr ek eid st a hs
    obtain ⟨⟨F2, ha2, hh2⟩, hs2⟩ := ih (attrStep nd tr ek eid st a) hs1
    rw [List.foldl_cons]
    refine ⟨⟨F1 ++ F2, ?_, ?_⟩, hs2⟩
    · rw [ha2, ha1, List.append_assoc]
    · rw [hh2, hh1, maxSeverity_append]; omega

mutual

/-- getTracerLocation appends its findings to the accumulator and returns
as highest exactly the maximum of the incoming highest and the severities
of the findings it appended. -/
theorem getTracerLocation_spec (p tr ek : String) (eid : Nat) (n : HTMLNode)
    (acc : List DOMContext) (h : Nat) :
    ∃ F, (getTracerLocation p tr ek eid n acc h).1 = acc ++ F
       ∧ (getTracerLocation p tr ek eid n acc h).2 = max h (maxSeverity F) := by
  match n with
  | HTMLNode.node ty d attrs children =>
    obtain ⟨⟨F1, ha1, hh1⟩, hs1⟩ := nodeCheck_spec p ty d tr ek eid acc h
    obtain ⟨⟨F2, ha2, hh2⟩, _⟩ :=
      attrFold_spec d tr ek eid attrs (nodeCheck p ty d tr ek eid acc h) hs1
    obtain ⟨F3, ha3, hh3⟩ :=
      getTracerLocationChildren_spec d tr ek eid children
        (attrs.foldl (attrStep d tr ek eid) (nodeCheck p ty d tr ek eid acc h)).1
        (attrs.foldl (attrStep d tr ek eid) (nodeCheck p ty d tr ek eid acc h)).2.1
    refine ⟨F1 ++ F2 ++ F3, ?_, ?_⟩
    · rw [getTracerLocation, ha3, ha2, ha1]
      simp [List.append_assoc]
    · rw [getTracerLocation, hh3, hh2, hh1, maxSeverity_append, maxSeverity_append]
      omega

/-- The child loop appends the children's findings and folds their
severities into highest. -/
theorem getTracerLocationChildren_spec (p tr ek : String) (eid : Nat) (ns : List HTMLNode)
    (acc : List DOMContext) (h : Nat) :
    ∃ F, (getTracerLocationChildren p tr ek eid ns acc h).1 = acc ++ F
       ∧ (getTracerLocationChildren p tr ek eid ns acc h).2 = max h (maxSeverity F) := by
  match ns with
  | [] => exact ⟨[], by simp [getTracerLocationChildren], by simp [getTracerLocationChildren, maxSeverity]⟩
  | c :: cs =>
    obtain ⟨F1, ha1, hh1⟩ := getTracerLocation_spec p tr ek eid c acc h
    obtain ⟨F2, ha2, hh2⟩ :=
      getTracerLocationChildren_spec p tr ek eid cs
        (getTracerLocation p tr ek eid c acc h).1
        (getTracerLocation p tr ek eid c acc h).2
    refine ⟨F1 ++ F2, ?_, ?_⟩
    · rw [getTracerLocationChildren, ha2, ha1, List.append_assoc]
    · rw [getTracerLocationChildren, hh2, hh1, maxSeverity_append]
      omega

end

/-- At the top-level call (empty accumulator, highest 0, as getDOMContexts
issues it) the returned highest is the maximum severity of the returned
findings. -/
lemma getTracerLocation_top (tr ek : String) (eid : Nat) (doc : HTMLNode) :
    (getTracerLocation "" tr ek eid doc [] 0).2
      = maxSeverity (getTracerLocation "" tr ek eid doc [] 0).1 := by
  obtain ⟨F, h1, h2⟩ := getTracerLocation_spec "" tr ek eid doc [] 0
  rw [h2, h1]
  simp

/-- C1: for every parsed tree, marker string and eventKind, the value the
classifier returns as highest equals the maximum severity among all
findings it emitted for the whole event (0 when none is emitted), even
though the working severity variable is shared, unreset, between the node
check and the attribute iterations. -/
theorem c1_highest_eq_max_emitted (n : HTMLNode) (tr ek : String) (eid : Nat) :
    (getTracerLocation "" tr ek eid n [] 0).2
      = maxSeverity (getTracerLocation "" tr ek eid n [] 0).1 :=
  getTracerLocation_top tr ek eid n

/-- The NodeName working pair of an element node outside an HTTP response
is (3, TagName), whatever the parent's name is. -/
lemma nodeNameSevReason_element (p ek : String) (hek : ¬ ek = "response") :
    nodeNameSevReason p NodeType.elementNode ek = (3, types.TagName) := by
  unfold nodeNameSevReason
  rw [if_pos ⟨rfl, hek⟩]

/-- C2: for every element node whose tag name contains the marker, with
eventKind other than "response", the classifier emits for that node the
finding {NodeName, severity 3, TagName} — never the script-tag reason —
even when the node's parent is named "script" (the parent name p is
arbitrary here, including "script"). -/
theorem c2_element_tag_name (p d tr ek : String) (eid : Nat)
    (attrs : List HTMLAttribute) (children : List HTMLNode)
    (hc : goContains d tr = true) (hek : ¬ ek = "response") :
    (∃ rest,
       (getTracerLocation p tr ek eid
          (HTMLNode.node NodeType.elementNode d attrs children) [] 0).1
         = (⟨eid, p, types.NodeName, gohtmlFormat d, 3, types.TagName⟩ : DOMContext) :: rest)
    ∧ types.TagName ≠ types.LeafNodeScriptTag := by
  have hn : nodeCheck p NodeType.elementNode d tr ek eid [] 0
      = ([⟨eid, p, types.NodeName, gohtmlFormat d, 3, types.TagName⟩], 3, 3, types.TagName) := by
    unfold nodeCheck
    rw [if_pos hc, nodeNameSevReason_element p ek hek]
    rfl
  obtain ⟨⟨F2, ha2, _⟩, hs2⟩ :=
    attrFold_spec d tr ek eid attrs (nodeCheck p NodeType.elementNode d tr ek eid [] 0)
      (by rw [hn])
  obtain ⟨F3, ha3, _⟩ :=
    getTracerLocationChildren_spec d tr ek eid children
      (attrs.foldl (attrStep d tr ek eid) (nodeCheck p NodeType.elementNode d tr ek eid [] 0)).1
      (attrs.foldl (attrStep d tr ek eid) (nodeCheck p NodeType.elementNode d tr ek eid [] 0)).2.1
  refine ⟨⟨F2 ++ F3, ?_⟩, by decide⟩
  rw [getTracerLocation, ha3, ha2, hn]
  simp

/-- Witness for C2 at a concrete input: marker "zt" inside tag name
"xzt", parent named "script", eventKind "html". -/
theorem c2_element_tag_name_witness :
    (∃ rest,
       (getTracerLocation "script" "zt" "html" 7
          (HTMLNode.node NodeType.elementNode "xzt" [] []) [] 0).1
         = (⟨7, "script", types.NodeName, gohtmlFormat "xzt", 3, types.TagName⟩ : DOMContext) :: rest)
    ∧ types.TagName ≠ types.LeafNodeScriptTag :=
  c2_element_tag_name "script" "xzt" "zt" "html" 7 [] [] (by decide) (by decide)

/-- C3: for an attribute whose name does not contain the marker but whose
value does, the emitted finding is: {AttrVal, 2, AttributeValueStartHref}
when eventKind is not "response", the key is "href" and the value starts
with the marker; {AttrVal, 2, AttributeValueOnEventHandler} when
eventKind is not "response" and the key starts with "on"; and
{AttrVal, 1, AttributeValueHTTPResponse} in every other case, including
whenever eventKind is "response". -/
theorem c3_attr_value_cases (nd tr ek : String) (eid : Nat)
    (st : List DOMContext × Nat × Nat × Nat) (a : HTMLAttribute)
    (hk : ¬ goContains a.key tr = true) (hv : goContains a.val tr = true) :
    (¬ ek = "response" ∧ a.key = "href" ∧ goStartsWith a.val tr = true →
      (attrStep nd tr ek eid st a).1
        = st.1 ++ [⟨eid, nd, types.AttrVal, a.val, 2, types.AttributeValueStartHref⟩])
    ∧ (¬ ek = "response" ∧ goStartsWith a.key "on" = true →
      (attrStep nd tr ek eid st a).1
        = st.1 ++ [⟨eid, nd, types.AttrVal, a.val, 2, types.AttributeValueOnEventHandler⟩])
    ∧ (¬ (¬ ek = "response" ∧ a.key = "href" ∧ goStartsWith a.val tr = true)
        ∧ ¬ (¬ ek = "response" ∧ goStartsWith a.key "on" = true) →
      (attrStep nd tr ek eid st a).1
        = st.1 ++ [⟨eid, nd, types.AttrVal, a.val, 1, types.AttributeValueHTTPResponse⟩]) := by
  have hstep : (attrStep nd tr ek eid st a).1
      = st.1 ++ [⟨eid, nd, types.AttrVal, a.val,
          (attrValSevReason a.key a.val tr ek).1,
          (attrValSevReason a.key a.val tr ek).2⟩] := by
    unfold attrStep
    rw [if_neg hk, if_pos hv]
  refine ⟨?_, ?_, ?_⟩
  · rintro ⟨hek, hkey, hpre⟩
    have hval : attrValSevReason a.key a.val tr ek = (2, types.AttributeValueStartHref) := by
      unfold attrValSevReason
      rw [if_pos hek, if_pos ⟨hkey, hpre⟩]
    rw [hstep, hval]
  · rintro ⟨hek, hon⟩
    have hnot : ¬ (a.key = "href" ∧ goStartsWith a.val tr = true) := by
      rintro ⟨hkey, -⟩
      rw [hkey] at hon
      exact absurd hon (by decide)
    have hval : attrValSevReason a.key a.val tr ek = (2, types.AttributeValueOnEventHandler) := by
      unfold attrValSevReason
      rw [if_pos hek, if_neg hnot, if_pos hon]
    rw [hstep, hval]
  · rintro ⟨hn1, hn2⟩
    by_cases hek : ek = "response"
    · have hval : attrValSevReason a.key a.val tr ek = (1, types.AttributeValueHTTPResponse) := by
        unfold attrValSevReason
        rw [if_neg (not_not_intro hek)]
      rw [hstep, hval]
    · have hval : attrValSevReason a.key a.val tr ek = (1, types.AttributeValueHTTPResponse) := by
        unfold attrValSevReason
        rw [if_pos hek, if_neg (fun hcon => hn1 ⟨hek, hcon⟩),
          if_neg (fun hcon => hn2 ⟨hek, hcon⟩)]
      rw [hstep, hval]

/-- Witness for C3 at a concrete input: attribute href="zthttp" with
marker "zt", eventKind "html", on the working state ([], 0, 0, 0). -/
theorem c3_attr_value_cases_witness :
    (¬ ("html" : String) = "response" ∧ (HTMLAttribute.mk "href" "zthttp").key = "href"
        ∧ goStartsWith (HTMLAttribute.mk "href" "zthttp").val "zt" = true →
      (attrStep "a" "zt" "html" 9 ([], 0, 0, 0) (HTMLAttribute.mk "href" "zthttp")).1
        = [] ++ [⟨9, "a", types.AttrVal, "zthttp", 2, types.AttributeValueStartHref⟩])
    ∧ (¬ ("html" : String) = "response"
        ∧ goStartsWith (HTMLAttribute.mk "href" "zthttp").key "on" = true →
      (attrStep "a" "zt" "html" 9 ([], 0, 0, 0) (HTMLAttribute.mk "href" "zthttp")).1
        = [] ++ [⟨9, "a", types.AttrVal, "zthttp", 2, types.AttributeValueOnEventHandler⟩])
    ∧ (¬ (¬ ("html" : String) = "response" ∧ (HTMLAttribute.mk "href" "zthttp").key = "href"
          ∧ goStartsWith (HTMLAttribute.mk "href" "zthttp").val "zt" = true)
        ∧ ¬ (¬ ("html" : String) = "response"
          ∧ goStartsWith (HTMLAttribute.mk "href" "zthttp").key "on" = true) →
      (attrStep "a" "zt" "html" 9 ([], 0, 0, 0) (HTMLAttribute.mk "href" "zthttp")).1
        = [] ++ [⟨9, "a", types.AttrVal, "zthttp", 1, types.AttributeValueHTTPResponse⟩]) :=
  c3_attr_value_cases "a" "zt" "html" 9 ([], 0, 0, 0) (HTMLAttribute.mk "href" "zthttp")
    (by decide) (by decide)

/-! ## Lemmas about ingestion -/

lemma maxSeverity_map_zero (l : List DOMContext) :
    maxSeverity (l.map (fun c => { c with severity := 0 })) = 0 := by
  induction l with
  | nil => rfl
  | cons c cs ih => simp [maxSeverity, ih]

/-- Inversion of a successful getDOMContexts call: the persisted tracer
row carries the watermark max of its old overall severity and the stored
findings' severities, its hasTracerEvents flag records whether a finding
was stored, and the returned highest is the maximum severity of the
stored findings. -/
lemma getDOMContexts_ok_tracer (t : Tracer) (e : EventInput)
    (contexts : List DOMContext) (sev : Nat) (ta : Tracer) (effs : List Effect)
    (h : getDOMContexts t e = Except.ok (contexts, sev, ta, effs)) :
    ta.overallSeverity = max t.overallSeverity (maxSeverity contexts)
    ∧ ta.hasTracerEvents = (t.hasTracerEvents || !contexts.isEmpty)
    ∧ sev = maxSeverity contexts := by
  unfold getDOMContexts at h
  rcases hp : e.parsedDoc with - | doc
  · rw [hp] at h
    exact Except.noConfusion h
  · rw [hp] at h
    simp only at h
    have htop := getTracerLocation_top t.tracerPayload e.eventType e.id doc
    by_cases hemp :
        (getTracerLocation "" t.tracerPayload e.eventType e.id doc [] 0).1 = []
    · rw [if_pos hemp] at h
      simp only [Except.ok.injEq, Prod.mk.injEq] at h
      obtain ⟨h1, h2, h3, -⟩ := h
      rw [← h3, ← h1, ← h2, htop, hemp]
      simp [maxSeverity]
    · rw [if_neg hemp] at h
      by_cases htxt : e.eventType = "text"
      · rw [if_pos htxt, if_pos htxt] at h
        simp only [Except.ok.injEq, Prod.mk.injEq] at h
        obtain ⟨h1, h2, h3, -⟩ := h
        have hms : maxSeverity contexts = 0 := by
          rw [← h1, maxSeverity_map_zero]
        have hne : contexts.isEmpty = false := by
          rw [← h1]
          rcases hcase :
              (getTracerLocation "" t.tracerPayload e.eventType e.id doc [] 0).1 with - | ⟨c, cs⟩
          · exact absurd hcase hemp
          · simp
        refine ⟨?_, ?_, ?_⟩
        · simp only [← h3, hms]
          split <;> omega
        · simp only [← h3, hne]
          simp
        · rw [← h2, hms]
      · rw [if_neg htxt, if_neg htxt] at h
        simp only [Except.ok.injEq, Prod.mk.injEq] at h
        obtain ⟨h1, h2, h3, -⟩ := h
        have hms : sev = maxSeverity contexts := by
          rw [← h2, ← h1, htop]
        have hne : contexts.isEmpty = false := by
          rw [← h1]
          rcases hcase :
              (getTracerLocation "" t.tracerPayload e.eventType e.id doc [] 0).1 with - | ⟨c, cs⟩
          · exact absurd hcase hemp
          · simp
        refine ⟨?_, ?_, hms⟩
        · simp only [← h3, ← hms, ← h2]
          split <;> omega
        · simp only [← h3, hne]
          simp

/-- Inversion of a successful AddEvent call, at the tracer row level. -/
lemma AddEvent_ok_tracer (t : Tracer) (e : EventInput) (out : AddEventOutcome)
    (effs : List Effect) (h : AddEvent t e = (Except.ok out, effs)) :
    out.tracerAfter.overallSeverity = max t.overallSeverity (maxSeverity out.contexts)
    ∧ out.tracerAfter.hasTracerEvents = (t.hasTracerEvents || !out.contexts.isEmpty) := by
  unfold AddEvent at h
  by_cases hf : e.format = Format.html
  · rw [if_pos hf] at h
    rcases hg : getDOMContexts t e with u | ⟨contexts, sev, ta, effs2⟩
    · rw [hg] at h
      simp at h
    · rw [hg] at h
      simp only [Prod.mk.injEq, Except.ok.injEq] at h
      obtain ⟨hout, -⟩ := h
      obtain ⟨g1, g2, -⟩ := getDOMContexts_ok_tracer t e contexts sev ta effs2 hg
      rw [← hout]
      exact ⟨g1, g2⟩
  · rw [if_neg hf] at h
    simp only [Prod.mk.injEq, Except.ok.injEq] at h
    obtain ⟨hout, -⟩ := h
    rw [← hout]
    constructor
    · simp [maxSeverity]
    · simp

lemma runAddEvents_cons_error (t : Tracer) (e : EventInput) (rest : List EventInput)
    (u : Unit) (effs : List Effect) (h : AddEvent t e = (Except.error u, effs)) :
    runAddEvents t (e :: rest) = runAddEvents t rest := by
  simp only [runAddEvents, h]

lemma runAddEvents_cons_ok (t : Tracer) (e : EventInput) (rest : List EventInput)
    (out : AddEventOutcome) (effs : List Effect) (h : AddEvent t e = (Except.ok out, effs)) :
    runAddEvents t (e :: rest)
      = ((runAddEvents out.tracerAfter rest).1,
         out.contexts :: (runAddEvents out.tracerAfter rest).2) := by
  simp only [runAddEvents, h]

/-- Across a sequence of AddEvent calls the persisted overall severity is
the watermark max of the initial value and all stored findings, and
hasTracerEvents records the initial flag or the existence of a stored
finding. -/
lemma runAddEvents_spec (evs : List EventInput) : ∀ t : Tracer,
    (runAddEvents t evs).1.overallSeverity
      = max t.overallSeverity (maxSeverity (runAddEvents t evs).2.flatten)
    ∧ (runAddEvents t evs).1.hasTracerEvents
      = (t.hasTracerEvents || (runAddEvents t evs).2.any fun l => !l.isEmpty) := by
  induction evs with
  | nil =>
    intro t
    constructor
    · simp [runAddEvents, maxSeverity]
    · simp [runAddEvents]
  | cons e rest ih =>
    intro t
    rcases hAE : AddEvent t e with ⟨u | out, effs⟩
    · rw [runAddEvents_cons_error t e rest u effs hAE]
      exact ih t
    · rw [runAddEvents_cons_ok t e rest out effs hAE]
      obtain ⟨s1, s2⟩ := AddEvent_ok_tracer t e out effs hAE
      obtain ⟨i1, i2⟩ := ih out.tracerAfter
      constructor
      · simp only [List.flatten_cons, i1, s1, maxSeverity_append]
        omega
      · simp only [List.any_cons, i2, s2, Bool.or_assoc]

lemma runAddEvents_append (l1 l2 : List EventInput) : ∀ t : Tracer,
    (runAddEvents t (l1 ++ l2)).1 = (runAddEvents (runAddEvents t l1).1 l2).1 := by
  induction l1 with
  | nil => intro t; rfl
  | cons e rest ih =>
    intro t
    rcases hAE : AddEvent t e with ⟨u | out, effs⟩
    · rw [List.cons_append, runAddEvents_cons_error t e (rest ++ l2) u effs hAE,
        runAddEvents_cons_error t e rest u effs hAE]
      exact ih t
    · rw [List.cons_append, runAddEvents_cons_ok t e (rest ++ l2) out effs hAE,
        runAddEvents_cons_ok t e rest out effs hAE]
      exact ih out.tracerAfter

/-- C4: for every event whose eventKind is "text", after classification
every finding attached to the event has severity 0 and the event's
highest severity is 0, regardless of which rule matched the marker or
where in the tree it matched. -/
theorem c4_text_events_zero_severity (tracer : Tracer) (event : EventInput)
    (contexts : List DOMContext) (sev : Nat) (tracerAfter : Tracer) (effs : List Effect)
    (ht : event.eventType = "text")
    (hok : getDOMContexts tracer event = Except.ok (contexts, sev, tracerAfter, effs)) :
    (∀ c ∈ contexts, c.severity = 0) ∧ sev = 0 := by
  unfold getDOMContexts at hok
  rcases hp : event.parsedDoc with - | doc
  · rw [hp] at hok
    exact Except.noConfusion hok
  · rw [hp] at hok
    simp only at hok
    by_cases hemp :
        (getTracerLocation "" tracer.tracerPayload event.eventType event.id doc [] 0).1 = []
    · rw [if_pos hemp] at hok
      simp only [Except.ok.injEq, Prod.mk.injEq] at hok
      obtain ⟨h1, h2, -, -⟩ := hok
      have htop := getTracerLocation_top tracer.tracerPayload event.eventType event.id doc
      constructor
      · intro c hcmem
        rw [← h1, hemp] at hcmem
        exact absurd hcmem (List.not_mem_nil c)
      · rw [← h2, htop, hemp]
        rfl
    · rw [if_neg hemp] at hok
      simp only [Except.ok.injEq, Prod.mk.injEq] at hok
      obtain ⟨h1, h2, -, -⟩ := hok
      rw [if_pos ht] at h1
      rw [if_pos ht] at h2
      constructor
      · intro c hcmem
        rw [← h1] at hcmem
        obtain ⟨c0, -, hc0⟩ := List.mem_map.mp hcmem
        rw [← hc0]
      · exact h2.symm

/-- Witness for C4 at a concrete input: a "text" event whose capture is a
single text node equal to the marker. -/
theorem c4_text_events_zero_severity_witness :
    (∀ c ∈ [(⟨5, "", types.Text, gohtmlFormat "zt", 0, types.LeafNode⟩ : DOMContext)],
      c.severity = 0) ∧ (0 : Nat) = 0 :=
  c4_text_events_zero_severity ⟨1, "zt", 0, false⟩
    ⟨5, "text", Format.html, some (HTMLNode.node NodeType.textNode "zt" [] [])⟩
    [⟨5, "", types.Text, gohtmlFormat "zt", 0, types.LeafNode⟩] 0 ⟨1, "zt", 0, true⟩
    [Effect.updateTracerHasEvents, Effect.notifyTracer] rfl rfl

/-- C7: across any sequence of AddEvent calls for the same, initially
fresh tracer, the persisted overall severity equals the maximum severity
among all findings folded in so far and is non-decreasing along the
sequence, and hasTracerEvents is true exactly when some stored event has
at least one finding. -/
theorem c7_overall_severity_watermark (t : Tracer) (evs : List EventInput)
    (h0 : t.overallSeverity = 0) (h1 : t.hasTracerEvents = false) :
    (runAddEvents t evs).1.overallSeverity
      = maxSeverity (runAddEvents t evs).2.flatten
    ∧ ((runAddEvents t evs).1.hasTracerEvents = true
        ↔ ∃ l ∈ (runAddEvents t evs).2, l ≠ [])
    ∧ (∀ l1 l2, evs = l1 ++ l2 →
        (runAddEvents t l1).1.overallSeverity
          ≤ (runAddEvents t evs).1.overallSeverity) := by
  obtain ⟨s1, s2⟩ := runAddEvents_spec evs t
  refine ⟨?_, ?_, ?_⟩
  · rw [s1, h0]
    omega
  · rw [s2, h1]
    simp [List.any_eq_true, List.isEmpty_iff]
  · intro l1 l2 hsplit
    subst hsplit
    rw [runAddEvents_append l1 l2 t]
    obtain ⟨s1', -⟩ := runAddEvents_spec l2 (runAddEvents t l1).1
    rw [s1']
    exact Nat.le_max_left _ _

/-- Witness for C7 at a concrete input: a fresh tracer and one markup
event whose tag name contains the marker. -/
theorem c7_overall_severity_watermark_witness :
    (runAddEvents ⟨1, "zt", 0, false⟩
        [⟨5, "html", Format.html, some (HTMLNode.node NodeType.elementNode "zt" [] [])⟩]).1.overallSeverity
      = maxSeverity (runAddEvents ⟨1, "zt", 0, false⟩
        [⟨5, "html", Format.html, some (HTMLNode.node NodeType.elementNode "zt" [] [])⟩]).2.flatten
    ∧ ((runAddEvents ⟨1, "zt", 0, false⟩
        [⟨5, "html", Format.html, some (HTMLNode.node NodeType.elementNode "zt" [] [])⟩]).1.hasTracerEvents = true
        ↔ ∃ l ∈ (runAddEvents ⟨1, "zt", 0, false⟩
        [⟨5, "html", Format.html, some (HTMLNode.node NodeType.elementNode "zt" [] [])⟩]).2, l ≠ [])
    ∧ (∀ l1 l2,
        [(⟨5, "html", Format.html, some (HTMLNode.node NodeType.elementNode "zt" [] [])⟩ : EventInput)]
          = l1 ++ l2 →
        (runAddEvents ⟨1, "zt", 0, false⟩ l1).1.overallSeverity
          ≤ (runAddEvents ⟨1, "zt", 0, false⟩
              [⟨5, "html", Format.html, some (HTMLNode.node NodeType.elementNode "zt" [] [])⟩]).1.overallSeverity) :=
  c7_overall_severity_watermark ⟨1, "zt", 0, false⟩
    [⟨5, "html", Format.html, some (HTMLNode.node NodeType.elementNode "zt" [] [])⟩] rfl rfl

/-- C9: an AddEvent call whose markup capture fails to parse returns the
parse error with an empty effect log: the event and its findings are not
persisted and the tracer row is not modified. -/
theorem c9_parse_failure_aborts (tracer : Tracer) (event : EventInput)
    (hf : event.format = Format.html) (hp : event.parsedDoc = none) :
    AddEvent tracer event = (Except.error (), []) := by
  unfold AddEvent
  rw [if_pos hf]
  have hg : getDOMContexts tracer event = Except.error () := by
    unfold getDOMContexts
    rw [hp]
  rw [hg]

/-- Witness for C9 at a concrete input: a markup event whose parse
failed. -/
theorem c9_parse_failure_aborts_witness :
    AddEvent ⟨3, "mk", 1, true⟩ ⟨2, "response", Format.html, none⟩
      = (Except.error (), []) :=
  c9_parse_failure_aborts ⟨3, "mk", 1, true⟩ ⟨2, "response", Format.html, none⟩ rfl rfl

/-- C10: an AddEvent call whose capture format is not markup stores the
event with zero findings, leaves the tracer row unchanged, performs no
tracer update and no tracer or high-severity notification, and never
invokes the classifier (its result does not depend on the parsed tree). -/
theorem c10_non_markup_frame (tracer : Tracer) (event : EventInput)
    (hf : ¬ event.format = Format.html) :
    AddEvent tracer event
      = (Except.ok ⟨[], 0, tracer⟩,
         [Effect.createEvent [], Effect.appendEventCache tracer.id, Effect.notifyEvent])
    ∧ ∀ p, AddEvent tracer { event with parsedDoc := p } = AddEvent tracer event := by
  have h1 : AddEvent tracer event
      = (Except.ok ⟨[], 0, tracer⟩,
         [Effect.createEvent [], Effect.appendEventCache tracer.id, Effect.notifyEvent]) := by
    unfold AddEvent
    rw [if_neg hf]
  refine ⟨h1, ?_⟩
  intro p
  have h2 : AddEvent tracer { event with parsedDoc := p }
      = (Except.ok ⟨[], 0, tracer⟩,
         [Effect.createEvent [], Effect.appendEventCache tracer.id, Effect.notifyEvent]) := by
    unfold AddEvent
    rw [if_neg hf]
  rw [h1, h2]

/-- Witness for C10 at a concrete input: a JSON event. -/
theorem c10_non_markup_frame_witness :
    AddEvent ⟨6, "zt", 2, true⟩
        ⟨4, "response", Format.json, some (HTMLNode.node NodeType.textNode "zt" [] [])⟩
      = (Except.ok ⟨[], 0, ⟨6, "zt", 2, true⟩⟩,
         [Effect.createEvent [], Effect.appendEventCache 6, Effect.notifyEvent])
    ∧ ∀ p, AddEvent ⟨6, "zt", 2, true⟩
        { (⟨4, "response", Format.json, some (HTMLNode.node NodeType.textNode "zt" [] [])⟩ : EventInput)
          with parsedDoc := p }
      = AddEvent ⟨6, "zt", 2, true⟩
        ⟨4, "response", Format.json, some (HTMLNode.node NodeType.textNode "zt" [] [])⟩ :=
  c10_non_markup_frame ⟨6, "zt", 2, true⟩
    ⟨4, "response", Format.json, some (HTMLNode.node NodeType.textNode "zt" [] [])⟩ (by decide)

/-! ## Lemmas about the event cache worker -/

/-- C5 counterexample: the claim fails on the code.  From a fresh cache,
processing Append(5, e) and then Get(5) performs no Store load, although
identifier 5 was never loaded — the worker tests emptiness of the cached
list (len(events[i]) == 0), not whether the identifier was ever loaded. -/
theorem c5_counterexample_append_then_get : ¬ getLoadsWhenNeverLoaded := by
  intro hcl
  have h := hcl (fun _ => []) [CacheMsg.update 5 ⟨1, 5, 0, RawEvent.empty, "html", []⟩] 5
    (by decide)
    (by simp [cacheLoadIds, tracerEventCacheStep])
  simp [tracerEventCacheRun, tracerEventCacheStep] at h

/-- C5 (amended): a Get performs a Store load exactly when the
identifier's cached list is empty (absent or with zero cached events);
when the cached list is nonempty it is returned as-is with no load and no
state change; when it is empty the Store's current list is loaded,
installed and returned; and the first Get after an InvalidateAll finds
the list empty, so it performs exactly one load and returns what the
Store currently holds. -/
theorem c5_amended_get_loads_iff_cache_empty (db : Int → List TracerEvent)
    (s : Int → List TracerEvent) (i : Int) (h : ¬ i = -1) :
    ((tracerEventCacheStep db s (CacheMsg.read i)).2.2 = (s i).isEmpty)
    ∧ ((s i).isEmpty = false →
        tracerEventCacheStep db s (CacheMsg.read i) = (s, some (s i), false))
    ∧ ((s i).isEmpty = true →
        (tracerEventCacheStep db s (CacheMsg.read i)).2.1 = some (db i)
        ∧ (tracerEventCacheStep db s (CacheMsg.read i)).1 i = db i)
    ∧ (tracerEventCacheStep db (tracerEventCacheStep db s (CacheMsg.read (-1))).1
        (CacheMsg.read i)).2 = (some (db i), true) := by
  simp only [tracerEventCacheStep]
  rw [if_neg h]
  refine ⟨?_, ?_, ?_, ?_⟩
  · cases he : (s i).isEmpty <;> simp [he]
  · intro he; rw [he]; simp
  · intro he; rw [he]; simp
  · rw [if_neg h]
    simp

/-- Witness for the amended C5 at a concrete input: identifier 3, a Store
holding one event for every identifier, an empty cache. -/
theorem c5_amended_get_loads_iff_cache_empty_witness :
    ((tracerEventCacheStep (fun _ => [⟨1, 3, 0, RawEvent.empty, "html", []⟩])
        (fun _ => []) (CacheMsg.read 3)).2.2
      = (((fun _ => []) : Int → List TracerEvent) 3).isEmpty)
    ∧ ((((fun _ => []) : Int → List TracerEvent) 3).isEmpty = false →
        tracerEventCacheStep (fun _ => [⟨1, 3, 0, RawEvent.empty, "html", []⟩])
            (fun _ => []) (CacheMsg.read 3)
          = (fun _ => [], some (((fun _ => []) : Int → List TracerEvent) 3), false))
    ∧ ((((fun _ => []) : Int → List TracerEvent) 3).isEmpty = true →
        (tracerEventCacheStep (fun _ => [⟨1, 3, 0, RawEvent.empty, "html", []⟩])
            (fun _ => []) (CacheMsg.read 3)).2.1
          = some ((fun _ => [⟨1, 3, 0, RawEvent.empty, "html", []⟩]) 3)
        ∧ (tracerEventCacheStep (fun _ => [⟨1, 3, 0, RawEvent.empty, "html", []⟩])
            (fun _ => []) (CacheMsg.read 3)).1 3
          = (fun _ => [⟨1, 3, 0, RawEvent.empty, "html", []⟩]) 3)
    ∧ (tracerEventCacheStep (fun _ => [⟨1, 3, 0, RawEvent.empty, "html", []⟩])
        (tracerEventCacheStep (fun _ => [⟨1, 3, 0, RawEvent.empty, "html", []⟩])
          (fun _ => []) (CacheMsg.read (-1))).1 (CacheMsg.read 3)).2
      = (some ((fun _ => [⟨1, 3, 0, RawEvent.empty, "html", []⟩]) 3), true) :=
  c5_amended_get_loads_iff_cache_empty (fun _ => [⟨1, 3, 0, RawEvent.empty, "html", []⟩])
    (fun _ => []) 3 (by decide)

/-- A message that neither addresses identifier t nor flushes leaves t's
cached list unchanged. -/
lemma cacheStep_avoids (db : Int → List TracerEvent) (s : Int → List TracerEvent)
    (t : Int) (m : CacheMsg) (hm : avoids t m = true) :
    (tracerEventCacheStep db s m).1 t = s t := by
  cases m with
  | read i =>
    simp only [avoids, Bool.and_eq_true, Bool.not_eq_true', beq_eq_false_iff_ne, ne_eq] at hm
    simp only [tracerEventCacheStep]
    rw [if_neg hm.2]
    have hti : ¬ t = i := fun hti => hm.1 hti.symm
    cases he : (s i).isEmpty
    · simp [he]
    · simp [he, hti]
  | update id e =>
    simp only [avoids, Bool.not_eq_true', beq_eq_false_iff_ne, ne_eq] at hm
    have htid : ¬ t = id := fun hh => hm hh.symm
    simp only [tracerEventCacheStep]
    simp [htid]

lemma cacheRun_avoids (db : Int → List TracerEvent) (t : Int) (msgs : List CacheMsg) :
    ∀ s : Int → List TracerEvent, (∀ m ∈ msgs, avoids t m = true) →
    (tracerEventCacheRun db s msgs).1 t = s t := by
  induction msgs with
  | nil => intro s _; rfl
  | cons m ms ih =>
    intro s hall
    simp only [tracerEventCacheRun]
    rw [ih (tracerEventCacheStep db s m).1 (fun m' hm' => hall m' (by simp [hm']))]
    exact cacheStep_avoids db s t m (hall m (by simp))

lemma cacheRun_append_state (db : Int → List TracerEvent) (l1 l2 : List CacheMsg) :
    ∀ s : Int → List TracerEvent,
    (tracerEventCacheRun db s (l1 ++ l2)).1
      = (tracerEventCacheRun db (tracerEventCacheRun db s l1).1 l2).1 := by
  induction l1 with
  | nil => intro s; rfl
  | cons m ms ih =>
    intro s
    simp only [List.cons_append, tracerEventCacheRun]
    exact ih (tracerEventCacheStep db s m).1

/-- C6: in the worker's serialized order, after Append(t, e1) and then
Append(t, e2) — with any Get/Append messages for other identifiers
interleaved — a Get(t) returns exactly [e1, e2], in order, with no Store
access; and an Append never accesses the Store in any state. -/
theorem c6_appends_then_get (db s0 : Int → List TracerEvent) (t : Int)
    (e1 e2 : TracerEvent) (m1 m2 m3 : List CacheMsg)
    (ht : ¬ t = -1) (h0 : s0 t = [])
    (h1 : ∀ m ∈ m1, avoids t m = true) (h2 : ∀ m ∈ m2, avoids t m = true)
    (h3 : ∀ m ∈ m3, avoids t m = true) :
    (tracerEventCacheStep db
        (tracerEventCacheRun db s0
          (m1 ++ CacheMsg.update t e1 :: (m2 ++ CacheMsg.update t e2 :: m3))).1
        (CacheMsg.read t))
      = ((tracerEventCacheRun db s0
          (m1 ++ CacheMsg.update t e1 :: (m2 ++ CacheMsg.update t e2 :: m3))).1,
         some [e1, e2], false)
    ∧ ∀ (s : Int → List TracerEvent) (j : Int) (e : TracerEvent),
        (tracerEventCacheStep db s (CacheMsg.update j e)).2 = (none, false) := by
  have hfinal : (tracerEventCacheRun db s0
      (m1 ++ CacheMsg.update t e1 :: (m2 ++ CacheMsg.update t e2 :: m3))).1 t
      = [e1, e2] := by
    rw [cacheRun_append_state db m1 (CacheMsg.update t e1 :: (m2 ++ CacheMsg.update t e2 :: m3)) s0]
    set s1 := (tracerEventCacheRun db s0 m1).1 with hs1
    have hA : s1 t = [] := by
      rw [hs1, cacheRun_avoids db t m1 s0 h1, h0]
    simp only [tracerEventCacheRun]
    set s2 := (tracerEventCacheStep db s1 (CacheMsg.update t e1)).1 with hs2
    have hB : s2 t = [e1] := by
      rw [hs2]
      simp only [tracerEventCacheStep]
      simp [hA]
    rw [cacheRun_append_state db m2 (CacheMsg.update t e2 :: m3) s2]
    set s3 := (tracerEventCacheRun db s2 m2).1 with hs3
    have hC : s3 t = [e1] := by
      rw [hs3, cacheRun_avoids db t m2 s2 h2, hB]
    simp only [tracerEventCacheRun]
    set s4 := (tracerEventCacheStep db s3 (CacheMsg.update t e2)).1 with hs4
    have hD : s4 t = [e1, e2] := by
      rw [hs4]
      simp only [tracerEventCacheStep]
      simp [hC]
    rw [cacheRun_avoids db t m3 s4 h3, hD]
  refine ⟨?_, ?_⟩
  · simp only [tracerEventCacheStep]
    rw [if_neg ht, hfinal]
    simp
  · intro s j e
    rfl

/-- Witness for C6 at a concrete input: identifier 1, an Append for
identifier 2 before the first Append and a Get for identifier 3 between
the two Appends. -/
theorem c6_appends_then_get_witness :
    (tracerEventCacheStep (fun _ => [])
        (tracerEventCacheRun (fun _ => []) (fun _ => [])
          ([CacheMsg.update 2 ⟨3, 2, 0, RawEvent.empty, "html", []⟩]
            ++ CacheMsg.update 1 ⟨1, 1, 0, RawEvent.empty, "html", []⟩
              :: ([CacheMsg.read 3]
                ++ CacheMsg.update 1 ⟨2, 1, 0, RawEvent.empty, "html", []⟩ :: []))).1
        (CacheMsg.read 1))
      = ((tracerEventCacheRun (fun _ => []) (fun _ => [])
          ([CacheMsg.update 2 ⟨3, 2, 0, RawEvent.empty, "html", []⟩]
            ++ CacheMsg.update 1 ⟨1, 1, 0, RawEvent.empty, "html", []⟩
              :: ([CacheMsg.read 3]
                ++ CacheMsg.update 1 ⟨2, 1, 0, RawEvent.empty, "html", []⟩ :: []))).1,
         some [⟨1, 1, 0, RawEvent.empty, "html", []⟩, ⟨2, 1, 0, RawEvent.empty, "html", []⟩],
         false)
    ∧ ∀ (s : Int → List TracerEvent) (j : Int) (e : TracerEvent),
        (tracerEventCacheStep (fun _ => []) s (CacheMsg.update j e)).2 = (none, false) :=
  c6_appends_then_get (fun _ => []) (fun _ => []) 1
    ⟨1, 1, 0, RawEvent.empty, "html", []⟩ ⟨2, 1, 0, RawEvent.empty, "html", []⟩
    [CacheMsg.update 2 ⟨3, 2, 0, RawEvent.empty, "html", []⟩] [CacheMsg.read 3] []
    (by decide) rfl (by decide) (by decide) (by decide)

/-! ## The raw-capture cache defect of getTracerEventsDB -/

/-- C8 evaluated at failing inputs: the load path caches fetched raw
captures under the event's list position but looks them up by the
RawEvent identifier.  Two events sharing RawEvent identifier 7 cause two
fetches of 7; and for events with RawEvent identifiers [5, 0] the second
event hits the cache entry keyed by position 0, the fetched capture is
assigned to a discarded loop copy, and the returned row keeps the zero
value raw capture instead of the Store's capture 0.  Consequently the
deduplicate-by-identifier property claimed of this load path is false. -/
theorem c8_position_key_code_bug :
    ((getTracerEventsDB (fun n => (⟨n + 1, "d", 0⟩ : RawEvent))
        [⟨1, 1, 7, RawEvent.empty, "html", []⟩, ⟨2, 1, 7, RawEvent.empty, "html", []⟩]).2
      = [7, 7])
    ∧ ((getTracerEventsDB (fun n => (⟨n + 1, "d", 0⟩ : RawEvent))
        [⟨1, 1, 5, RawEvent.empty, "html", []⟩, ⟨2, 1, 0, RawEvent.empty, "html", []⟩]).1.map
          (fun v => v.rawEvent)
      = [⟨6, "d", 0⟩, RawEvent.empty])
    ∧ RawEvent.empty ≠ (fun n => (⟨n + 1, "d", 0⟩ : RawEvent)) 0
    ∧ ¬ rawCaptureDedupByIdentifier := by
  have hfetch : (getTracerEventsDB (fun n => (⟨n + 1, "d", 0⟩ : RawEvent))
      [⟨1, 1, 7, RawEvent.empty, "html", []⟩, ⟨2, 1, 7, RawEvent.empty, "html", []⟩]).2
      = [7, 7] := by decide
  refine ⟨hfetch, by decide, by decide, ?_⟩
  intro hcl
  have h := (hcl (fun n => (⟨n + 1, "d", 0⟩ : RawEvent))
    [⟨1, 1, 7, RawEvent.empty, "html", []⟩, ⟨2, 1, 7, RawEvent.empty, "html", []⟩]).1
  rw [hfetch] at h
  exact absurd h (by decide)

end Tracy
